import Mathlib

/-!
Verification of the FAS_Calendar calendar-grid core against its
natural-language specification.  The definitions below are a shallow
embedding of `src/frontend/src/components/CalendarView.tsx`,
`src/frontend/src/components/EventDetailModal.tsx` and the holiday data
module: JavaScript numbers are modelled as `ℚ` (the computations at stake
are exact at these magnitudes), `NaN`-producing parses as `Option`,
and JS strings as Lean `String`.
-/

/-- JS whitespace characters relevant to `Number.parseInt` trimming. -/
def isJsWhitespace (c : Char) : Bool :=
  c = ' ' ∨ c = '\t' ∨ c = '\n' ∨ c = '\r' ∨ c = '\x0b' ∨ c = '\x0c'

/-- Value of one hexadecimal digit, `none` for a non-hex character. -/
def hexDigitVal (c : Char) : Option Nat :=
  if '0' ≤ c ∧ c ≤ '9' then some (c.toNat - '0'.toNat)
  else if 'a' ≤ c ∧ c ≤ 'f' then some (c.toNat - 'a'.toNat + 10)
  else if 'A' ≤ c ∧ c ≤ 'F' then some (c.toNat - 'A'.toNat + 10)
  else none

/-- Whether a character is a hexadecimal digit. -/
def isHexDigit (c : Char) : Bool := (hexDigitVal c).isSome

/-- JS `parseInt` with radix 16 strips a leading `0x`/`0X` marker. -/
def stripHexMark (l : List Char) : List Char :=
  if l.head? = some '0' ∧ (l.tail.head? = some 'x' ∨ l.tail.head? = some 'X')
  then l.tail.tail else l

/-- Numeric value of a list of hex digits, most significant first. -/
def hexListVal (l : List Char) : Nat :=
  l.foldl (fun acc c => 16 * acc + (hexDigitVal c).getD 0) 0

/-- Model of JS `Number.parseInt(s, 16)`: skip leading whitespace, an
optional sign, an optional `0x` marker, then read the longest run of hex
digits; `none` models the `NaN` result when that run is empty. -/
def parseInt16 (s : String) : Option Int :=
  let l0 := s.data.dropWhile isJsWhitespace
  let neg : Bool := l0.head? = some '-'
  let l1 := if l0.head? = some '-' ∨ l0.head? = some '+' then l0.tail else l0
  let l2 := stripHexMark l1
  let ds := l2.takeWhile isHexDigit
  if ds = [] then none
  else some (if neg then -(hexListVal ds : Int) else (hexListVal ds : Int))

/-- Model of `hex.replace('#', '')`: JS `String.replace` with a string
pattern removes only the first occurrence. -/
def removeFirstOcc : List Char → Char → List Char
  | [], _ => []
  | c :: rest, t => if c = t then rest else c :: removeFirstOcc rest t

/-- The `normalized` string of `getAdaptiveTextColor`/`lightenColor`. -/
def replaceFirstHash (s : String) : String := ⟨removeFirstOcc s.data '#'⟩

/-- Luminance used by `getAdaptiveTextColor`: `none` models the `NaN`
produced when any channel fails to parse (`NaN` propagates through the
weighted sum). -/
def luminanceOf (r g b : Option Int) : Option ℚ :=
  match r, g, b with
  | some r, some g, some b =>
      some (2126 / 10000 * ((r : ℚ) / 255) + 7152 / 10000 * ((g : ℚ) / 255)
        + 722 / 10000 * ((b : ℚ) / 255))
  | _, _, _ => none

/-- Model of `getAdaptiveTextColor` (CalendarView.tsx lines 36-54).  The
two `none` fallthrough branches are exactly the JS comparisons
`NaN < 0.75 = false` and `NaN > 0.5 = false`. -/
def getAdaptiveTextColor (hex : String) (preferLight : Bool) : String :=
  if hex = "" then (if preferLight then "#ffffff" else "#111827")
  else
    let normalized := replaceFirstHash hex
    if normalized.data.length ≠ 6 then
      (if preferLight then "#ffffff" else "#111827")
    else
      let r := parseInt16 ⟨normalized.data.take 2⟩
      let g := parseInt16 ⟨(normalized.data.drop 2).take 2⟩
      let b := parseInt16 ⟨(normalized.data.drop 4).take 2⟩
      if preferLight then
        match luminanceOf r g b with
        | some l => if l < 3 / 4 then "#ffffff" else "#1f2937"
        | none => "#1f2937"
      else
        match luminanceOf r g b with
        | some l => if l > 1 / 2 then "#1f2937" else "#ffffff"
        | none => "#ffffff"

/-- JS `Math.round`. -/
def jsRound (x : ℚ) : Int := Int.floor (x + 1 / 2)

/-- The `mixChannel` closure of `lightenColor`:
`Math.min(255, Math.round(channel + (255 - channel) * ratio))`. -/
def mixChannel (ratio : ℚ) (channel : Nat) : Int :=
  min 255 (jsRound ((channel : ℚ) + (255 - (channel : ℚ)) * ratio))

/-- The 32-bit pattern JS bitwise operators work on (`ToInt32`). -/
def to32 (num : Int) : Nat := (num % 2 ^ 32).toNat

/-- JS `(num >> 16) & 0xff`. -/
def channelR (num : Int) : Nat := to32 num / 65536 % 256

/-- JS `(num >> 8) & 0xff`. -/
def channelG (num : Int) : Nat := to32 num / 256 % 256

/-- JS `num & 0xff`. -/
def channelB (num : Int) : Nat := to32 num % 256

/-- JS `value.toString(16)` for the (possibly negative) channel value
(core `Nat.toDigits` prints lowercase hex exactly like JS). -/
def jsToHexString (n : Int) : String :=
  if n < 0 then "-" ++ ⟨Nat.toDigits 16 n.natAbs⟩ else ⟨Nat.toDigits 16 n.toNat⟩

/-- JS `.padStart(2, '0')`. -/
def padStart2 (s : String) : String :=
  if s.data.length ≥ 2 then s else ⟨'0' :: s.data⟩

/-- One output channel of `lightenColor`: `toString(16).padStart(2,'0')`. -/
def toHex2 (n : Int) : String := padStart2 (jsToHexString n)

/-- Model of `lightenColor` (CalendarView.tsx lines 62-79). -/
def lightenColor (hex : String) (ratio : ℚ) : String :=
  if hex = "" then hex
  else
    let normalized := replaceFirstHash hex
    if normalized.data.length ≠ 6 then hex
    else
      match parseInt16 normalized with
      | none => hex
      | some num =>
        let r := channelR num
        let g := channelG num
        let b := channelB num
        "#" ++ toHex2 (mixChannel ratio r) ++ toHex2 (mixChannel ratio g)
          ++ toHex2 (mixChannel ratio b)

/-- A well-formed 6-hex-digit color string: after removing the first `#`
there are exactly six characters, all hexadecimal. -/
def isValidHex6 (s : String) : Prop :=
  (replaceFirstHash s).data.length = 6 ∧
    ∀ c ∈ (replaceFirstHash s).data, isHexDigit c = true

instance (s : String) : Decidable (isValidHex6 s) := by
  unfold isValidHex6; infer_instance

/-- Relative luminance as the specification words it: `0.2126·R + 0.7152·G +
0.0722·B` with the three channel bytes normalized to `[0,1]`. -/
def specLuminance (s : String) : ℚ :=
  match (replaceFirstHash s).data with
  | [a, b, c, d, e, f] =>
      2126 / 10000 * ((16 * ((hexDigitVal a).getD 0) + (hexDigitVal b).getD 0 : ℚ) / 255)
        + 7152 / 10000 * ((16 * ((hexDigitVal c).getD 0) + (hexDigitVal d).getD 0 : ℚ) / 255)
        + 722 / 10000 * ((16 * ((hexDigitVal e).getD 0) + (hexDigitVal f).getD 0 : ℚ) / 255)
  | _ => 0

/-- The set of characters JS `toString(16)` can emit for values in
`[0, 15]`; used to state the lowercase-roundtrip hypothesis. -/
def lowerHexChars : List Char :=
  ['0', '1', '2', '3', '4', '5', '6', '7'] ++ ['8', '9', 'a', 'b', 'c', 'd', 'e', 'f']

/-- A color string of the shape `#` followed by six lowercase hex digits. -/
def isLowerHexColor (s : String) : Prop :=
  s.data.length = 7 ∧ s.data.head? = some '#' ∧ ∀ c ∈ s.data.tail, c ∈ lowerHexChars

instance (s : String) : Decidable (isLowerHexColor s) := by
  unfold isLowerHexColor; infer_instance

/-- Screen rectangle with the `DOMRect` fields the components read. -/
structure Rect where
  left : ℚ
  top : ℚ
  right : ℚ
  bottom : ℚ
  width : ℚ
  height : ℚ

/-- Model of `computePosition` in `CustomMorePopover`
(CalendarView.tsx lines 709-735), for the case where the popover content
rectangle has been measured (`popRect` present): `viewportPadding = 16`,
`offset = 12`, result rounded with `Math.round`. -/
def computeMorePosition (anchor : Rect) (popW popH vw vh : ℚ) : Int × Int :=
  let viewportPadding : ℚ := 16
  let offset : ℚ := 12
  let left0 := anchor.right + offset
  let left1 :=
    if left0 + popW + viewportPadding > vw then anchor.left - popW - offset else left0
  let left2 := if left1 < viewportPadding then viewportPadding else left1
  let top0 := anchor.top
  let top1 :=
    if top0 + popH + viewportPadding > vh then
      max viewportPadding (anchor.bottom - popH - offset)
    else top0
  let top2 := if top1 < viewportPadding then viewportPadding else top1
  (jsRound left2, jsRound top2)

/-- Model of the `positionStyle` computation of `EventDetailModal`
(EventDetailModal.tsx lines 82-129), for the anchored case:
`viewportPadding = 16`, `gap = 12`, `cardSize.width || 360` and
`cardSize.height || 320` fallbacks included. -/
def detailPosition (anchor : Rect) (cardW cardH vw vh : ℚ) : ℚ × ℚ :=
  let viewportPadding : ℚ := 16
  let gap : ℚ := 12
  let width := if cardW = 0 then 360 else cardW
  let height := if cardH = 0 then 320 else cardH
  let roomRight := vw - anchor.right - viewportPadding
  let roomLeft := anchor.left - viewportPadding
  let canFitRight := roomRight ≥ width + gap
  let canFitLeft := roomLeft ≥ width + gap
  let left0 :=
    if canFitRight ∨ (¬canFitLeft ∧ roomRight ≥ roomLeft) then anchor.right + gap
    else anchor.left - width - gap
  let left1 :=
    if left0 < viewportPadding then viewportPadding
    else if left0 + width + viewportPadding > vw then vw - width - viewportPadding
    else left0
  let top0 := anchor.top
  let top1 :=
    if top0 + height + viewportPadding > vh then vh - height - viewportPadding else top0
  let top2 := if top1 < viewportPadding then viewportPadding else top1
  (left1, top2)

/-- Date/time information of a source record (`types/calendar.ts`). -/
structure DateTimeInfo where
  dateTime : String
  timeZone : String
deriving DecidableEq

/-- A source calendar event (`types/calendar.ts` `CalendarEvent`).
The `end` field is written `end_` because `end` is reserved in Lean. -/
structure CalendarEvent where
  id : String
  subject : String
  start : DateTimeInfo
  end_ : DateTimeInfo
  location : Option String
  showAs : String
  isAllDay : Bool
  userEmail : String
  userName : String
deriving DecidableEq

/-- A user record (`types/calendar.ts` `UserInfo`). -/
structure UserInfo where
  email : String
  displayName : String
  color : String
deriving DecidableEq

/-- The FullCalendar-facing event produced by the `events` `useMemo` of
`CalendarView`.  `start`/`end_` hold `new Date(...).getTime()` results,
with `none` modelling an invalid date (`NaN`); `extendedProps` fields are
inlined. -/
structure FullCalendarEvent where
  id : String
  title : String
  start : Option Int
  end_ : Option Int
  allDay : Bool
  backgroundColor : String
  borderColor : String
  textColor : String
  userEmail : String
  userName : String
  showAs : String
  location : Option String
  isHoliday : Bool
  isPast : Bool
  isOncall : Bool
  classNames : List String
deriving DecidableEq

/-- JS `a || b` for an optional string: `undefined` and `""` are falsy. -/
def jsOrString (o : Option String) (dflt : String) : String :=
  match o with
  | some s => if s = "" then dflt else s
  | none => dflt

/-- JS `email.split('@')[0]`. -/
def emailLocalPart (s : String) : String := ⟨s.data.takeWhile (· ≠ '@')⟩

/-- JS object-literal lookup for a record built by successive assignment:
the last binding for a key wins. -/
def jsRecordLookup {α : Type} (entries : List (String × α)) (key : String) : Option α :=
  ((entries.filter (fun p => p.1 = key)).getLast?).map (·.2)

/-- The `userColorMap` `useMemo` of `CalendarView` (lines 133-139):
`map[user.email] = colorOverrides[user.email] ?? user.color`. -/
def userColorMap (users : List UserInfo) (colorOverrides : String → Option String)
    (email : String) : Option String :=
  jsRecordLookup (users.map (fun u => (u.email, (colorOverrides u.email).getD u.color))) email

/-- The truthiness-guarded selection check
`selectedEventId && selectedEventId === eventId`. -/
def selectedHit (selectedEventId : Option String) (eventId : String) : Bool :=
  match selectedEventId with
  | some s => s ≠ "" ∧ s = eventId
  | none => false

/-- Display identifier of a person's event: `` `${email}-${event.id}` ``
(CalendarView.tsx line 157). -/
def personalEventId (email id : String) : String := email ++ "-" ++ id

/-- Display identifier of a holiday event: `` `holiday-${holiday.id}` ``
(CalendarView.tsx line 201). -/
def holidayEventId (id : String) : String := "holiday-" ++ id

/-- Display identifier of an on-call event:
`` `${event.userEmail}-${event.id}` `` (CalendarView.tsx line 254). -/
def oncallEventId (userEmail id : String) : String := userEmail ++ "-" ++ id

/-- The `isPast` computation `new Date(event.end.dateTime).getTime() < now`:
an invalid date gives `NaN`, and `NaN < now` is `false`.  `parseDate`
abstracts the JS date parser (`none` = invalid date). -/
def isPastOf (parseDate : String → Option Int) (now : Int) (e : CalendarEvent) : Bool :=
  match parseDate e.end_.dateTime with
  | some t => t < now
  | none => false

/-- Conversion of one personal event (CalendarView.tsx lines 156-193). -/
def convertPersonalEvent (parseDate : String → Option Int) (now : Int)
    (selectedEventId : Option String) (email userName baseColor : String)
    (event : CalendarEvent) : FullCalendarEvent :=
  let eventId := personalEventId email event.id
  let isPast := isPastOf parseDate now event
  let backgroundColor := if isPast then lightenColor baseColor (88 / 100) else baseColor
  let borderColor := if isPast then lightenColor baseColor (92 / 100) else baseColor
  let textColor :=
    if isPast then "rgba(71, 85, 105, 0.65)" else getAdaptiveTextColor backgroundColor true
  let classNames := ["fc-event-rounded"] ++ (if isPast then ["fc-event-past"] else [])
    ++ (if selectedHit selectedEventId eventId then ["fc-event-selected"] else [])
  { id := eventId, title := event.subject,
    start := parseDate event.start.dateTime, end_ := parseDate event.end_.dateTime,
    allDay := event.isAllDay, backgroundColor := backgroundColor,
    borderColor := borderColor, textColor := textColor,
    userEmail := email, userName := userName, showAs := event.showAs,
    location := event.location, isHoliday := false, isPast := isPast,
    isOncall := false, classNames := classNames }

/-- Conversion of one holiday record (CalendarView.tsx lines 198-235). -/
def holidayVisualEvent (parseDate : String → Option Int) (now : Int)
    (selectedEventId : Option String) (holiday : CalendarEvent) : FullCalendarEvent :=
  let isPastHoliday := isPastOf parseDate now holiday
  let eventId := holidayEventId holiday.id
  let baseBg := "#C8E6C9"
  let baseBorder := "#81C784"
  let backgroundColor := if isPastHoliday then lightenColor baseBg (9 / 10) else baseBg
  let borderColor := if isPastHoliday then lightenColor baseBorder (95 / 100) else baseBorder
  let textColor :=
    if isPastHoliday then "rgba(30, 64, 45, 0.65)"
    else getAdaptiveTextColor backgroundColor false
  let classNames := ["fc-event-holiday", "fc-event-rounded"]
    ++ (if isPastHoliday then ["fc-event-past"] else [])
    ++ (if selectedHit selectedEventId eventId then ["fc-event-selected"] else [])
  { id := eventId, title := holiday.subject,
    start := parseDate holiday.start.dateTime, end_ := parseDate holiday.end_.dateTime,
    allDay := true, backgroundColor := backgroundColor, borderColor := borderColor,
    textColor := textColor, userEmail := "holiday@taiwan", userName := "台灣節日",
    showAs := "free", location := none, isHoliday := true, isPast := isPastHoliday,
    isOncall := false, classNames := classNames }

/-- Conversion of one on-call event (CalendarView.tsx lines 241-279). -/
def oncallVisualEvent (parseDate : String → Option Int) (now : Int)
    (selectedEventId : Option String) (colorMap : String → Option String)
    (event : CalendarEvent) : FullCalendarEvent :=
  let isPast := isPastOf parseDate now event
  let baseColor := jsOrString (colorMap event.userEmail) "#4f46e5"
  let backgroundColor := if isPast then lightenColor baseColor (88 / 100) else baseColor
  let borderColor := if isPast then lightenColor baseColor (92 / 100) else baseColor
  let textColor :=
    if isPast then "rgba(71, 85, 105, 0.75)" else getAdaptiveTextColor backgroundColor true
  let eventId := oncallEventId event.userEmail event.id
  let classNames := ["fc-event-rounded", "fc-event-oncall"]
    ++ (if isPast then ["fc-event-past"] else [])
    ++ (if selectedHit selectedEventId eventId then ["fc-event-selected"] else [])
  { id := eventId, title := event.subject,
    start := parseDate event.start.dateTime, end_ := parseDate event.end_.dateTime,
    allDay := true, backgroundColor := backgroundColor, borderColor := borderColor,
    textColor := textColor, userEmail := event.userEmail, userName := event.userName,
    showAs := event.showAs, location := event.location, isHoliday := false,
    isPast := isPast, isOncall := true, classNames := classNames }

/-- The full `events` `useMemo` of `CalendarView` (lines 142-294): selected
users' events, then holidays when enabled, then on-call events when enabled
and nonempty, in source push order. -/
def eventsMemo (parseDate : String → Option Int) (now : Int)
    (calendars : List (String × List CalendarEvent)) (users : List UserInfo)
    (selectedUsers : List String) (colorOverrides : String → Option String)
    (holidays : List CalendarEvent) (showHolidays : Bool)
    (oncallEvents : List CalendarEvent) (showOncall : Bool)
    (selectedEventId : Option String) : List FullCalendarEvent :=
  let colorMap := userColorMap users colorOverrides
  let filteredCalendars := calendars.filter (fun p => selectedUsers.contains p.1)
  let personal := (filteredCalendars.map (fun p =>
    let email := p.1
    let userName :=
      jsOrString ((users.find? (fun u => u.email = email)).map (·.displayName))
        (emailLocalPart email)
    let baseColor := jsOrString (colorMap email) "#3174ad"
    p.2.map (convertPersonalEvent parseDate now selectedEventId email userName baseColor))).flatten
  let holidayPart :=
    if showHolidays then holidays.map (holidayVisualEvent parseDate now selectedEventId)
    else []
  let oncallPart :=
    if showOncall ∧ 0 < oncallEvents.length then
      oncallEvents.map (oncallVisualEvent parseDate now selectedEventId colorMap)
    else []
  personal ++ holidayPart ++ oncallPart

/-- The fields of a FullCalendar `EventApi` that the click handlers read. -/
structure EventApiModel where
  id : String
  userEmail : String
  isHoliday : Bool
  isOncall : Bool
deriving DecidableEq

/-- Projection of a produced event to the `EventApi` fields the click
handlers read. -/
def toEventApi (v : FullCalendarEvent) : EventApiModel :=
  { id := v.id, userEmail := v.userEmail, isHoliday := v.isHoliday, isOncall := v.isOncall }

/-- Model of `openEventDetail` (CalendarView.tsx lines 313-336): the result
is the `CalendarEvent` handed to `onEventClick`, `none` when the callback is
not invoked. -/
def openEventDetail (calendars : List (String × List CalendarEvent))
    (oncallEvents : List CalendarEvent) (ev : EventApiModel) : Option CalendarEvent :=
  let fromCalendars : Option CalendarEvent :=
    if ev.userEmail = "" then none
    else
      match jsRecordLookup calendars ev.userEmail with
      | some evs => evs.find? (fun e => ev.userEmail ++ "-" ++ e.id == ev.id)
      | none => none
  match fromCalendars with
  | some e => some e
  | none =>
    if ev.isOncall then
      oncallEvents.find? (fun e => e.userEmail ++ "-" ++ e.id == ev.id)
    else none

/-- Model of `handleEventClick` (CalendarView.tsx lines 338-365): a holiday
event returns before `openEventDetail` is reached. -/
def handleEventClick (calendars : List (String × List CalendarEvent))
    (oncallEvents : List CalendarEvent) (ev : EventApiModel) : Option CalendarEvent :=
  if ev.isHoliday then none else openEventDetail calendars oncallEvents ev

/-- The `clampHeight` closure of the metrics effect
(CalendarView.tsx line 493): `Math.max(48, Math.min(value, 120))`. -/
def clampHeight (value : ℚ) : ℚ := max 48 (min value 120)

/-- Row count derived in `handleDatesSet` (CalendarView.tsx lines 305-310):
`rows = max(1, round(max(1, round((end - start) / MS_PER_DAY)) / 7))`. -/
def rowsFromRange (startMs endMs : Int) : Int :=
  let activeDays := max 1 (jsRound (((endMs : ℚ) - (startMs : ℚ)) / 86400000))
  max 1 (jsRound ((activeDays : ℚ) / 7))

/-- The `monthWeekRowCount || 6` fallback used in `updateMetrics`. -/
def effRowCount (rowCount : Int) : Int := if rowCount = 0 then 6 else rowCount

/-- The CSS custom-property value `updateMetrics` writes
(CalendarView.tsx lines 494-505): `Math.round(clampHeight((h - 64) / rowCount))`. -/
def dayFrameMinHeight (measuredHeight : ℚ) (rowCount : Int) : Int :=
  jsRound (clampHeight ((measuredHeight - 64) / (effRowCount rowCount : ℚ)))

/-- The `dayMaxEvents` prop (CalendarView.tsx line 604): a constant `2` in
month view, unlimited (`false`, here `none`) otherwise. -/
def dayMaxEventsSetting (view : String) : Option Nat :=
  if view = "dayGridMonth" then some 2 else none

/-- State of the month-metrics machinery.  `capturedRowCount` is the
`monthWeekRowCount` value captured by the closure of the metrics effect:
the effect is registered with an empty dependency array
(CalendarView.tsx line 541), so the closure keeps the row count from the
initial render for the whole component lifetime, while `currentRowCount`
is the live `monthWeekRowCount` state that `handleDatesSet` updates. -/
structure MetricsState where
  capturedRowCount : Int
  currentRowCount : Int
  cssVar : Option Int

/-- Observable triggers of the metrics machinery: the mount-time effect
run, a `datesSet` callback, and a resize-observer notification. -/
inductive MetricsEvent where
  | mount (measuredHeight : ℚ)
  | datesSet (startMs endMs : Int)
  | resize (measuredHeight : ℚ)

/-- One step of the metrics machinery.  `mount` and `resize` run
`updateMetrics`, which reads the captured row count; `datesSet` runs
`setMonthWeekRowCount` and nothing else (the effect does not re-run, its
dependency array being empty). -/
def stepMetrics (s : MetricsState) : MetricsEvent → MetricsState
  | .mount h => { s with cssVar := some (dayFrameMinHeight h s.capturedRowCount) }
  | .datesSet a b => { s with currentRowCount := rowsFromRange a b }
  | .resize h => { s with cssVar := some (dayFrameMinHeight h s.capturedRowCount) }

/-- Initial state: `useState(6)` (CalendarView.tsx line 130), so the
mount-render closure captures row count 6; no CSS variable written yet. -/
def initMetrics : MetricsState :=
  { capturedRowCount := 6, currentRowCount := 6, cssVar := none }

/-- Run of the metrics machinery over a trigger sequence. -/
def runMetrics (events : List MetricsEvent) : MetricsState :=
  events.foldl stepMetrics initMetrics

/-- Days from the Unix epoch to civil date `y-m-d` (proleptic Gregorian,
Howard Hinnant's `days_from_civil`). -/
def daysFromCivil (y m d : Int) : Int :=
  let y' := if m ≤ 2 then y - 1 else y
  let era := y'.fdiv 400
  let yoe := y' - era * 400
  let mp := (m + 9) % 12
  let doy := (153 * mp + 2).fdiv 5 + d - 1
  let doe := yoe * 365 + yoe.fdiv 4 - yoe.fdiv 100 + doy
  era * 146097 + doe - 719468

/-- Epoch seconds of `createHoliday`'s start instant
(`src/unnamed/part_002` lines 12-18): the string
`` `${date}T00:00:00+08:00` `` parsed by `new Date` denotes midnight of the
civil date in UTC+08:00, i.e. the UTC instant eight hours earlier. -/
def createHolidayStartEpoch (y m d : Int) : Int :=
  daysFromCivil y m d * 86400 - 8 * 3600

/-- The calendar day cell an all-day event lands on.  `CalendarView`
configures no `timeZone` option, so FullCalendar uses its default
`'local'` zone and places the event on the viewer-local civil date of the
instant: `floor((epochSeconds + tzOffsetSeconds) / 86400)`. -/
def renderedCellDay (epochSeconds tzOffsetSeconds : Int) : Int :=
  (epochSeconds + tzOffsetSeconds).fdiv 86400

/-- A calendar batch entry used for concrete evaluations: an event whose
date strings the date parser rejects. -/
def badEvent : CalendarEvent :=
  { id := "e1", subject := "Bad", start := ⟨"not-a-date", "UTC"⟩,
    end_ := ⟨"also-not-a-date", "UTC"⟩, location := none, showAs := "busy",
    isAllDay := false, userEmail := "a@b", userName := "A" }

/-- A user record for concrete evaluations. -/
def aliceUser : UserInfo := { email := "a@b", displayName := "Alice", color := "#3174ad" }

/-- A hexadecimal digit is not JS whitespace. -/
theorem hexDigit_not_ws {c : Char} (h : isHexDigit c = true) : isJsWhitespace c = false := by
  cases hw : isJsWhitespace c with
  | false => rfl
  | true =>
    unfold isJsWhitespace at hw
    rw [decide_eq_true_iff] at hw
    rcases hw with h1 | h1 | h1 | h1 | h1 | h1 <;> subst h1 <;> exact absurd h (by decide)

/-- A hexadecimal digit is none of the characters that would divert
`parseInt` before the digit run. -/
theorem hexDigit_ne_special {c : Char} (h : isHexDigit c = true) :
    c ≠ '-' ∧ c ≠ '+' ∧ c ≠ 'x' ∧ c ≠ 'X' := by
  refine ⟨?_, ?_, ?_, ?_⟩ <;> intro h1 <;> subst h1 <;> exact absurd h (by decide)

/-- A list all of whose elements satisfy the predicate is its own
`takeWhile`. -/
theorem takeWhile_all {p : Char → Bool} :
    ∀ l : List Char, (∀ c ∈ l, p c = true) → l.takeWhile p = l := by
  intro l h
  induction l with
  | nil => rfl
  | cons a rest ih =>
    rw [List.takeWhile_cons, h a (by simp)]
    simp only [ih (fun c hc => h c (by simp [hc]))]
    simp

/-- On a string made of hexadecimal digits, `parseInt16` reads the whole
string. -/
theorem parseInt16_all_hex (a : Char) (rest : List Char)
    (h : ∀ c ∈ a :: rest, isHexDigit c = true) :
    parseInt16 ⟨a :: rest⟩ = some (hexListVal (a :: rest) : Int) := by
  have ha : isHexDigit a = true := h a (by simp)
  have hspec := hexDigit_ne_special ha
  have hl0 : List.dropWhile isJsWhitespace (a :: rest) = a :: rest := by
    rw [List.dropWhile_cons, hexDigit_not_ws ha]
    simp
  have hstrip : stripHexMark (a :: rest) = a :: rest := by
    unfold stripHexMark
    simp only [List.head?_cons, List.tail_cons]
    rcases rest with _ | ⟨b, rest2⟩
    · simp
    · have hb := hexDigit_ne_special (h b (by simp))
      simp [hb.2.2.1, hb.2.2.2]
  simp only [parseInt16]
  simp [hl0, hstrip, takeWhile_all _ h, hspec.1, hspec.2.1]

/-- Rounding an integer value returns that integer. -/
theorem jsRound_intCast (n : Int) : jsRound (n : ℚ) = n := by
  unfold jsRound
  rw [Int.floor_eq_iff]
  exact ⟨by linarith, by linarith⟩

/-- At ratio `0`, `mixChannel` returns the channel clamped to 255. -/
theorem mixChannel_zero (c : Nat) : mixChannel 0 c = min 255 (c : Int) := by
  unfold mixChannel
  rw [show ((c : ℚ) + (255 - (c : ℚ)) * 0) = ((c : Int) : ℚ) by push_cast; ring]
  rw [jsRound_intCast]

/-- At ratio `1`, `mixChannel` returns 255 for every channel value. -/
theorem mixChannel_one (c : Nat) : mixChannel 1 c = 255 := by
  unfold mixChannel
  rw [show ((c : ℚ) + (255 - (c : ℚ)) * 1) = ((255 : Int) : ℚ) by push_cast; ring]
  rw [jsRound_intCast]
  simp

/-- A list of length six is an explicit six-element list. -/
theorem list_eq_six {α : Type} (l : List α) (h : l.length = 6) :
    ∃ a b c d e f, l = [a, b, c, d, e, f] := by
  rcases l with _ | ⟨a, _ | ⟨b, _ | ⟨c, _ | ⟨d, _ | ⟨e, _ | ⟨f, _ | ⟨g, t⟩⟩⟩⟩⟩⟩⟩ <;>
    simp_all

/-- Value of a two-digit fold. -/
theorem hexListVal_pair (x y : Char) :
    hexListVal [x, y] = 16 * (hexDigitVal x).getD 0 + (hexDigitVal y).getD 0 := by
  simp only [hexListVal, List.foldl_cons, List.foldl_nil]
  omega

/-- C5: for every valid 6-hex-digit color string, `getAdaptiveTextColor`
compares the spec's relative luminance (`0.2126·R + 0.7152·G + 0.0722·B`,
channels normalized to `[0,1]`) against `0.75` when `preferLight` is set
(white below the threshold, the dark color otherwise) and against the
standard `0.5` threshold otherwise; in particular `#1a73e8` with
`preferLight = true` yields `#ffffff`.  The function is deterministic by
construction. -/
theorem c5_luminance_threshold (hex : String) (pl : Bool) (h : isValidHex6 hex) :
    getAdaptiveTextColor hex pl =
      (if pl = true then
        (if specLuminance hex < 3 / 4 then "#ffffff" else "#1f2937")
      else
        (if specLuminance hex > 1 / 2 then "#1f2937" else "#ffffff")) ∧
    getAdaptiveTextColor "#1a73e8" true = "#ffffff" := by
  constructor
  · obtain ⟨h6, hall⟩ := h
    obtain ⟨a, b, c, d, e, f, hdata⟩ := list_eq_six _ h6
    have hex_ne : ¬hex = "" := by
      intro he
      subst he
      exact absurd h6 (by decide)
    have hmem : ∀ x ∈ [a, b, c, d, e, f], isHexDigit x = true := by
      intro x hx
      exact hall x (hdata ▸ hx)
    have hA : isHexDigit a = true := hmem a (by simp)
    have hB : isHexDigit b = true := hmem b (by simp)
    have hC : isHexDigit c = true := hmem c (by simp)
    have hD : isHexDigit d = true := hmem d (by simp)
    have hE : isHexDigit e = true := hmem e (by simp)
    have hF : isHexDigit f = true := hmem f (by simp)
    have hpr : parseInt16 ⟨[a, b]⟩ = some (hexListVal [a, b] : Int) :=
      parseInt16_all_hex a [b] (by
        intro x hx
        simp only [List.mem_cons, List.not_mem_nil, or_false] at hx
        rcases hx with rfl | rfl <;> assumption)
    have hpg : parseInt16 ⟨[c, d]⟩ = some (hexListVal [c, d] : Int) :=
      parseInt16_all_hex c [d] (by
        intro x hx
        simp only [List.mem_cons, List.not_mem_nil, or_false] at hx
        rcases hx with rfl | rfl <;> assumption)
    have hpb : parseInt16 ⟨[e, f]⟩ = some (hexListVal [e, f] : Int) :=
      parseInt16_all_hex e [f] (by
        intro x hx
        simp only [List.mem_cons, List.not_mem_nil, or_false] at hx
        rcases hx with rfl | rfl <;> assumption)
    have hlum : (2126 / 10000 * (((hexListVal [a, b] : Int) : ℚ) / 255)
        + 7152 / 10000 * (((hexListVal [c, d] : Int) : ℚ) / 255)
        + 722 / 10000 * (((hexListVal [e, f] : Int) : ℚ) / 255)) = specLuminance hex := by
      simp only [specLuminance, hdata, hexListVal_pair]
      push_cast
      ring
    simp only [getAdaptiveTextColor, hdata]
    rw [if_neg hex_ne]
    rw [if_neg (by simp)]
    rw [show List.take 2 [a, b, c, d, e, f] = [a, b] from rfl]
    rw [show List.take 2 (List.drop 2 [a, b, c, d, e, f]) = [c, d] from rfl]
    rw [show List.take 2 (List.drop 4 [a, b, c, d, e, f]) = [e, f] from rfl]
    rw [hpr, hpg, hpb]
    simp only [luminanceOf]
    rw [hlum]
  · simp only [getAdaptiveTextColor]
    rw [if_neg (by decide)]
    rw [show (replaceFirstHash "#1a73e8").data = ['1', 'a', '7', '3', 'e', '8'] from by decide]
    rw [if_neg (by decide)]
    rw [show parseInt16 ⟨List.take 2 ['1', 'a', '7', '3', 'e', '8']⟩ = some 26 from by decide]
    rw [show parseInt16 ⟨List.take 2 (List.drop 2 ['1', 'a', '7', '3', 'e', '8'])⟩ = some 115
      from by decide]
    rw [show parseInt16 ⟨List.take 2 (List.drop 4 ['1', 'a', '7', '3', 'e', '8'])⟩ = some 232
      from by decide]
    simp only [luminanceOf]
    norm_num

/-- Witness for C5 at the spec's own scenario input. -/
theorem c5_witness : getAdaptiveTextColor "#1a73e8" true = "#ffffff" :=
  (c5_luminance_threshold "#1a73e8" true (by decide)).2

/-- Luminance propagates a failed channel parse: one `NaN` channel makes
the whole weighted sum `NaN`. -/
theorem luminanceOf_none {r g b : Option Int} (h : r = none ∨ g = none ∨ b = none) :
    luminanceOf r g b = none := by
  rcases r with _ | r <;> rcases g with _ | g <;> rcases b with _ | b <;>
    simp_all [luminanceOf]

/-- C6 (amended): the safe default is returned exactly for the shape
errors the guards test (empty input, length after removing the first `#`
different from 6).  A 6-character input for which some channel slice
fails to parse (`parseInt` gives `NaN` — the slice has no leading hex
digit, e.g. every slice of `"zzzzzz"`) slips past the guards into the
`NaN` luminance path, which returns `#1f2937` when `preferLight` and
`#ffffff` otherwise — not the safe default.  A non-hex character alone
does not force this: `parseInt` reads prefixes, so an input like
`"123z56"` still yields a real luminance. -/
theorem c6_default_only_for_shape_errors (hex s : String) (pl : Bool)
    (h : hex = "" ∨ (replaceFirstHash hex).data.length ≠ 6)
    (hs6 : (replaceFirstHash s).data.length = 6)
    (hnan : parseInt16 ⟨(replaceFirstHash s).data.take 2⟩ = none ∨
      parseInt16 ⟨((replaceFirstHash s).data.drop 2).take 2⟩ = none ∨
      parseInt16 ⟨((replaceFirstHash s).data.drop 4).take 2⟩ = none) :
    getAdaptiveTextColor hex pl = (if pl = true then "#ffffff" else "#111827") ∧
    getAdaptiveTextColor s true = "#1f2937" ∧
    getAdaptiveTextColor s false = "#ffffff" := by
  have hne : ¬s = "" := by
    intro he
    subst he
    exact absurd hs6 (by decide)
  have hlum : luminanceOf (parseInt16 ⟨(replaceFirstHash s).data.take 2⟩)
      (parseInt16 ⟨((replaceFirstHash s).data.drop 2).take 2⟩)
      (parseInt16 ⟨((replaceFirstHash s).data.drop 4).take 2⟩) = none :=
    luminanceOf_none hnan
  refine ⟨?_, ?_, ?_⟩
  · rcases h with h | h
    · subst h
      cases pl <;> rfl
    · by_cases he : hex = ""
      · subst he
        cases pl <;> rfl
      · simp only [getAdaptiveTextColor]
        rw [if_neg he, if_pos h]
  · simp only [getAdaptiveTextColor]
    rw [if_neg hne, if_neg (by simp [hs6]), hlum]
    rfl
  · simp only [getAdaptiveTextColor]
    rw [if_neg hne, if_neg (by simp [hs6]), hlum]
    rfl

/-- Witness for C6 at a wrong-length input and the all-unparseable
6-character input. -/
theorem c6_witness :
    (getAdaptiveTextColor "#12" false = (if false = true then "#ffffff" else "#111827")) ∧
    getAdaptiveTextColor "zzzzzz" true = "#1f2937" ∧
    getAdaptiveTextColor "zzzzzz" false = "#ffffff" :=
  c6_default_only_for_shape_errors "#12" "zzzzzz" false (Or.inr (by decide)) (by decide)
    (Or.inl (by decide))

/-- Counterexample to C6 as stated: the 6-character non-hex input
`"zzzzzz"` with `preferLight = true` does not return the safe default
`#ffffff`; it returns `#1f2937`. -/
theorem c6_counterexample :
    getAdaptiveTextColor "zzzzzz" true = "#1f2937" ∧
    getAdaptiveTextColor "zzzzzz" true ≠ "#ffffff" := by decide

/-- Reduction of `ToInt32` on a natural number: it is reduction modulo `2^32`. -/
theorem to32_natCast (n : Nat) : to32 (n : Int) = n % 2 ^ 32 := by
  unfold to32
  rw [show (2 : Int) ^ 32 = 4294967296 from by norm_num,
    show (2 : Nat) ^ 32 = 4294967296 from by norm_num]
  omega

/-- Byte extraction from a six-hex-digit value. -/
theorem channelsOfSixDigits (v1 v2 v3 v4 v5 v6 : Nat)
    (b1 : v1 < 16) (b2 : v2 < 16) (b3 : v3 < 16) (b4 : v4 < 16)
    (b5 : v5 < 16) (b6 : v6 < 16) :
    channelR ((16 * (16 * (16 * (16 * (16 * v1 + v2) + v3) + v4) + v5) + v6 : Nat) : Int)
        = 16 * v1 + v2 ∧
    channelG ((16 * (16 * (16 * (16 * (16 * v1 + v2) + v3) + v4) + v5) + v6 : Nat) : Int)
        = 16 * v3 + v4 ∧
    channelB ((16 * (16 * (16 * (16 * (16 * v1 + v2) + v3) + v4) + v5) + v6 : Nat) : Int)
        = 16 * v5 + v6 := by
  unfold channelR channelG channelB
  simp only [to32_natCast]
  refine ⟨?_, ?_, ?_⟩ <;> omega

/-- Fold value of a six-digit hex string. -/
theorem hexListVal_six (a b c d e f : Char) :
    hexListVal [a, b, c, d, e, f] =
      16 * (16 * (16 * (16 * (16 * ((hexDigitVal a).getD 0) + (hexDigitVal b).getD 0)
        + (hexDigitVal c).getD 0) + (hexDigitVal d).getD 0) + (hexDigitVal e).getD 0)
        + (hexDigitVal f).getD 0 := by
  simp only [hexListVal, List.foldl_cons, List.foldl_nil]
  omega

/-- A lowercase hex digit is a hex digit. -/
theorem lowerHex_isHexDigit {c : Char} (h : c ∈ lowerHexChars) : isHexDigit c = true := by
  simp only [lowerHexChars] at h
  rcases List.mem_append.mp h with h | h <;> fin_cases h <;> decide

/-- A lowercase hex digit has value below 16. -/
theorem lowerHex_val_lt {c : Char} (h : c ∈ lowerHexChars) : (hexDigitVal c).getD 0 < 16 := by
  simp only [lowerHexChars] at h
  rcases List.mem_append.mp h with h | h <;> fin_cases h <;> decide

/-- Printing with `toString(16).padStart(2, '0')` inverts parsing on a lowercase hex
digit pair. -/
theorem toHex2_pair (x y : Char) (hx : x ∈ lowerHexChars) (hy : y ∈ lowerHexChars) :
    toHex2 ((16 * (hexDigitVal x).getD 0 + (hexDigitVal y).getD 0 : Nat) : Int) =
      ⟨[x, y]⟩ := by
  simp only [lowerHexChars] at hx hy
  rcases List.mem_append.mp hx with hx | hx <;> rcases List.mem_append.mp hy with hy | hy <;>
    fin_cases hx <;> fin_cases hy <;> decide

/-- C7 (amended): `lighten(hex, 0)` returns the input unchanged for inputs
written as `#` followed by six lowercase hex digits (for other valid
spellings the result is canonicalized to that form, so exact identity
fails); `lighten(hex, 1)` yields `#ffffff` for every valid 6-hex-digit
input; and for ratios in `[0, 1]` every output channel stays in
`[0, 255]`. -/
theorem c7_boundary_laws (hex1 hex2 : String) (ch : Nat) (r : ℚ)
    (h1 : isLowerHexColor hex1) (h2 : isValidHex6 hex2)
    (hch : ch ≤ 255) (hr0 : 0 ≤ r) (_hr1 : r ≤ 1) :
    lightenColor hex1 0 = hex1 ∧ lightenColor hex2 1 = "#ffffff" ∧
    0 ≤ mixChannel r ch ∧ mixChannel r ch ≤ 255 := by
  refine ⟨?_, ?_, ?_, min_le_left _ _⟩
  · obtain ⟨hlen, hhead, htail⟩ := h1
    obtain ⟨t, hdt⟩ : ∃ t, hex1.data = '#' :: t := by
      cases hd : hex1.data with
      | nil => rw [hd] at hlen; simp at hlen
      | cons x t =>
        rw [hd] at hhead
        simp only [List.head?_cons, Option.some.injEq] at hhead
        exact ⟨t, by rw [hhead]⟩
    have ht6 : t.length = 6 := by
      rw [hdt] at hlen
      simpa using hlen
    obtain ⟨a, b, c, d, e, f, hdata⟩ := list_eq_six _ ht6
    subst hdata
    have htail' : ∀ x ∈ [a, b, c, d, e, f], x ∈ lowerHexChars := by
      intro x hx
      exact htail x (by rw [hdt]; simpa using hx)
    have hA := htail' a (by simp)
    have hB := htail' b (by simp)
    have hC := htail' c (by simp)
    have hD := htail' d (by simp)
    have hE := htail' e (by simp)
    have hF := htail' f (by simp)
    have hstr : hex1 = ⟨'#' :: [a, b, c, d, e, f]⟩ := congrArg String.mk hdt
    have hnorm : replaceFirstHash hex1 = ⟨[a, b, c, d, e, f]⟩ := by
      rw [hstr]; rfl
    have hparse : parseInt16 ⟨[a, b, c, d, e, f]⟩ =
        some (hexListVal [a, b, c, d, e, f] : Int) :=
      parseInt16_all_hex a [b, c, d, e, f] (by
        intro x hx
        exact lowerHex_isHexDigit (htail' x hx))
    have hchan := channelsOfSixDigits ((hexDigitVal a).getD 0) ((hexDigitVal b).getD 0)
      ((hexDigitVal c).getD 0) ((hexDigitVal d).getD 0) ((hexDigitVal e).getD 0)
      ((hexDigitVal f).getD 0) (lowerHex_val_lt hA) (lowerHex_val_lt hB)
      (lowerHex_val_lt hC) (lowerHex_val_lt hD) (lowerHex_val_lt hE) (lowerHex_val_lt hF)
    have hne : ¬hex1 = "" := by
      rw [hstr]; intro hcon; exact absurd (congrArg String.data hcon) (by simp)
    simp only [lightenColor, hnorm]
    rw [if_neg hne, if_neg (by simp)]
    rw [hparse]
    simp only [hexListVal_six]
    rw [hchan.1, hchan.2.1, hchan.2.2]
    have hmixv : ∀ u v : Nat, u < 16 → v < 16 →
        mixChannel 0 (16 * u + v) = ((16 * u + v : Nat) : Int) := by
      intro u v hu hv
      rw [mixChannel_zero]
      exact min_eq_right (by omega)
    rw [hmixv _ _ (lowerHex_val_lt hA) (lowerHex_val_lt hB),
      hmixv _ _ (lowerHex_val_lt hC) (lowerHex_val_lt hD),
      hmixv _ _ (lowerHex_val_lt hE) (lowerHex_val_lt hF)]
    rw [toHex2_pair a b hA hB, toHex2_pair c d hC hD, toHex2_pair e f hE hF]
    rw [hstr]
    rfl
  · obtain ⟨h6, hall⟩ := h2
    obtain ⟨a, b, c, d, e, f, hdata⟩ := list_eq_six _ h6
    have hne : ¬hex2 = "" := by
      intro he
      subst he
      exact absurd h6 (by decide)
    have hstr : replaceFirstHash hex2 = ⟨[a, b, c, d, e, f]⟩ := congrArg String.mk hdata
    have hparse : parseInt16 ⟨[a, b, c, d, e, f]⟩ =
        some (hexListVal [a, b, c, d, e, f] : Int) :=
      parseInt16_all_hex a [b, c, d, e, f] (by
        intro x hx
        exact hall x (by rw [hdata]; exact hx))
    simp only [lightenColor, hstr]
    rw [if_neg hne, if_neg (by simp)]
    rw [hparse]
    simp only [mixChannel_one]
    rfl
  · unfold mixChannel
    refine le_min (by norm_num) ?_
    unfold jsRound
    rw [Int.le_floor]
    have hc255 : (ch : ℚ) ≤ 255 := by exact_mod_cast hch
    have := mul_nonneg (by linarith : (0 : ℚ) ≤ 255 - (ch : ℚ)) hr0
    push_cast
    linarith

/-- Witness for C7 at concrete inputs. -/
theorem c7_witness :
    lightenColor "#1a73e8" 0 = "#1a73e8" ∧ lightenColor "#1A73E8" 1 = "#ffffff" ∧
    0 ≤ mixChannel (1 / 2) 100 ∧ mixChannel (1 / 2) 100 ≤ 255 :=
  c7_boundary_laws "#1a73e8" "#1A73E8" 100 (1 / 2) (by decide) (by decide) (by decide)
    (by norm_num) (by norm_num)

/-- Counterexample to C7 as stated: `lighten` is not the identity at
ratio 0 on the uppercase hex color `#1A73E8`; the output is
canonicalized to lowercase. -/
theorem c7_counterexample :
    lightenColor "#1A73E8" 0 = "#1a73e8" ∧ lightenColor "#1A73E8" 0 ≠ "#1A73E8" := by
  have hp : parseInt16 (replaceFirstHash "#1A73E8") = some 1733608 := by decide
  have hr : channelR 1733608 = 26 := by decide
  have hg : channelG 1733608 = 115 := by decide
  have hb : channelB 1733608 = 232 := by decide
  have h1 : lightenColor "#1A73E8" 0 = "#1a73e8" := by
    simp only [lightenColor, hp, hr, hg, hb, mixChannel_zero]
    rw [if_neg (by decide), if_neg (by decide)]
    decide
  exact ⟨h1, by rw [h1]; decide⟩

/-- C10 (amended): `lightenColor` returns its input completely unchanged
when the input is empty, is not exactly 6 characters after removing the
first `#`, or has no parseable hex-digit run (`parseInt` yields `NaN`);
but a 6-character input beginning with hex digits is transformed from the
parsed run even when later characters are not hexadecimal. -/
theorem c10_identity_on_unparsed (hex : String) (r : ℚ)
    (h : hex = "" ∨ (replaceFirstHash hex).data.length ≠ 6 ∨
      parseInt16 (replaceFirstHash hex) = none) :
    lightenColor hex r = hex := by
  by_cases he : hex = ""
  · subst he
    rfl
  · by_cases hl : (replaceFirstHash hex).data.length ≠ 6
    · simp only [lightenColor]
      rw [if_neg he, if_pos hl]
    · have hp : parseInt16 (replaceFirstHash hex) = none := by
        rcases h with h | h | h
        · exact absurd h he
        · exact absurd h hl
        · exact h
      simp only [lightenColor, hp]
      rw [if_neg he, if_neg hl]

/-- Witness for C10 at a whitespace-only (unparseable) 6-character input. -/
theorem c10_witness : lightenColor "      " (7 / 10) = "      " :=
  c10_identity_on_unparsed "      " (7 / 10) (Or.inr (Or.inr (by decide)))

/-- Counterexample to C10 as stated: `"12345z"` is not a well-formed
6-hex-digit input (it contains `z`), yet `lightenColor` transforms it from
the parsed prefix `0x12345` instead of returning it unchanged. -/
theorem c10_counterexample :
    lightenColor "12345z" 0 = "#012345" ∧ lightenColor "12345z" 0 ≠ "12345z" := by
  have hp : parseInt16 (replaceFirstHash "12345z") = some 74565 := by decide
  have hr : channelR 74565 = 1 := by decide
  have hg : channelG 74565 = 35 := by decide
  have hb : channelB 74565 = 69 := by decide
  have h1 : lightenColor "12345z" 0 = "#012345" := by
    simp only [lightenColor, hp, hr, hg, hb, mixChannel_zero]
    rw [if_neg (by decide), if_neg (by decide)]
    decide
  exact ⟨h1, by rw [h1]; decide⟩

/-- C8 (amended): a person's or an on-call display identifier
(`email-sourceId`) can never equal a holiday display identifier
(`holiday-holidayId`) provided the owner's email contains `@` and the
holiday id does not — which holds for the repository's data, whose
holiday ids are `holiday-YYYY-MM-DD`; without those provisos the bare
concatenation scheme does collide. -/
theorem c8_ids_disjoint (email pid oid hid : String)
    (h1 : '@' ∈ email.data) (h2 : '@' ∉ hid.data) :
    personalEventId email pid ≠ holidayEventId hid ∧
    oncallEventId email oid ≠ holidayEventId hid := by
  have key : ∀ x : String, email ++ "-" ++ x ≠ "holiday-" ++ hid := by
    intro x heq
    have hd : (email ++ "-" ++ x).data = ("holiday-" ++ hid).data := by rw [heq]
    rw [show (email ++ "-" ++ x).data = email.data ++ "-".data ++ x.data from rfl] at hd
    rw [show ("holiday-" ++ hid).data = "holiday-".data ++ hid.data from rfl] at hd
    have hmem : '@' ∈ "holiday-".data ++ hid.data := by
      rw [← hd]
      exact List.mem_append.mpr (Or.inl (List.mem_append.mpr (Or.inl h1)))
    rcases List.mem_append.mp hmem with hc | hc
    · exact absurd hc (by decide)
    · exact h2 hc
  exact ⟨key pid, key oid⟩

/-- Witness for C8 at realistic identifiers. -/
theorem c8_witness :
    personalEventId "a@b" "1" ≠ holidayEventId "holiday-2025-01-01" ∧
    oncallEventId "a@b" "7" ≠ holidayEventId "holiday-2025-01-01" :=
  c8_ids_disjoint "a@b" "1" "7" "holiday-2025-01-01" (by decide) (by decide)

/-- Counterexample to C8 as stated: with owner key `holiday` and matching
source/holiday ids the two identifier constructions collide. -/
theorem c8_counterexample :
    personalEventId "holiday" "2024-01-01" = holidayEventId "2024-01-01" := by decide

/-- The id `holiday@taiwan-<x>` can never equal `holiday-<y>`: their
eighth characters differ. -/
theorem holiday_email_sep (a b : String) :
    ("holiday@taiwan" ++ "-" ++ a) ≠ ("holiday-" ++ b) := by
  intro h
  have hd := congrArg (fun s : String => s.data.take 8) h
  simp only at hd
  rw [show ("holiday@taiwan" ++ "-" ++ a).data.take 8 =
    ['h', 'o', 'l', 'i', 'd', 'a', 'y', '@'] from rfl] at hd
  rw [show ("holiday-" ++ b).data.take 8 =
    ['h', 'o', 'l', 'i', 'd', 'a', 'y', '-'] from rfl] at hd
  exact absurd hd (by decide)

/-- C9: the event-selection callback is never invoked with a holiday:
`handleEventClick` returns before `openEventDetail` on a holiday chip, and
`openEventDetail` cannot resolve a holiday visual event back to a source
record (its id `holiday-…` matches no `holiday@taiwan-…` candidate and its
`isOncall` flag is false), so neither activation path reaches
`onEventClick`. -/
theorem c9_holiday_never_selected (cal : List (String × List CalendarEvent))
    (onc : List CalendarEvent) (pd : String → Option Int) (now : Int)
    (sel : Option String) (h : CalendarEvent) :
    handleEventClick cal onc (toEventApi (holidayVisualEvent pd now sel h)) = none ∧
    openEventDetail cal onc (toEventApi (holidayVisualEvent pd now sel h)) = none := by
  have hapi : toEventApi (holidayVisualEvent pd now sel h) =
      { id := holidayEventId h.id, userEmail := "holiday@taiwan", isHoliday := true,
        isOncall := false } := rfl
  have hopen : openEventDetail cal onc (toEventApi (holidayVisualEvent pd now sel h))
      = none := by
    rw [hapi]
    simp only [openEventDetail]
    rw [if_neg (by decide)]
    have hfind : ∀ evs : List CalendarEvent,
        evs.find? (fun e => "holiday@taiwan-" ++ e.id == holidayEventId h.id)
          = none := by
      intro evs
      rw [List.find?_eq_none]
      intro e _
      simp only [beq_iff_eq]
      exact holiday_email_sep e.id h.id
    cases hl : jsRecordLookup cal "holiday@taiwan" with
    | none => simp
    | some evs => simp [hfind evs]
  exact ⟨by simp [handleEventClick, hapi], hopen⟩

/-- Characterization of `Math.round` at a known integer result. -/
theorem jsRound_eq (x : ℚ) (z : ℤ) (h1 : (z : ℚ) ≤ x + 1 / 2)
    (h2 : x + 1 / 2 < (z : ℚ) + 1) : jsRound x = z := by
  unfold jsRound
  rw [Int.floor_eq_iff]
  exact ⟨h1, by linarith⟩

/-- Rounding does not go below an integer lower bound. -/
theorem jsRound_ge (z : ℤ) (x : ℚ) (h : (z : ℚ) ≤ x) : z ≤ jsRound x := by
  unfold jsRound
  rw [Int.le_floor]
  linarith

/-- Counterexample to C2 as stated: with anchor `(40, 40, 60, 60)` and
content `200 × 200` in a `100 × 100` viewport, the event-detail placement
violates the left bound (`left < padding`) and the overflow-popover
placement violates the right bound (`left + width > viewportWidth -
padding`). -/
theorem c2_counterexample :
    (detailPosition ⟨40, 40, 60, 60, 20, 20⟩ 200 200 100 100).1 < 16 ∧
    ((computeMorePosition ⟨40, 40, 60, 60, 20, 20⟩ 200 200 100 100).1 : ℚ) + 200 >
      100 - 16 := by
  have hd : (detailPosition ⟨40, 40, 60, 60, 20, 20⟩ 200 200 100 100).1 = -116 := by
    simp only [detailPosition]
    norm_num
  have hm : (computeMorePosition ⟨40, 40, 60, 60, 20, 20⟩ 200 200 100 100).1 = 16 := by
    simp only [computeMorePosition]
    norm_num
    exact jsRound_eq _ _ (by norm_num) (by norm_num)
  rw [hd, hm]
  norm_num

/-- C2 (amended): whenever the content fits inside the padded viewport
(positive size, `width ≤ viewportWidth - 2·padding`, `height ≤
viewportHeight - 2·padding`), the event-detail placement keeps the
popover fully inside `[padding, viewportSize - padding]` on both axes for
every anchor rectangle; the overflow-popover placement always guarantees
the lower bounds `left ≥ padding` and `top ≥ padding`, but not the
right/bottom bounds. -/
theorem c2_contained_when_fits (anchor : Rect) (w h vw vh : ℚ)
    (hw0 : 0 < w) (hh0 : 0 < h) (hw : w + 32 ≤ vw) (hh : h + 32 ≤ vh) :
    (16 ≤ (detailPosition anchor w h vw vh).1 ∧
      (detailPosition anchor w h vw vh).1 + w ≤ vw - 16 ∧
      16 ≤ (detailPosition anchor w h vw vh).2 ∧
      (detailPosition anchor w h vw vh).2 + h ≤ vh - 16) ∧
    (16 ≤ (computeMorePosition anchor w h vw vh).1 ∧
      16 ≤ (computeMorePosition anchor w h vw vh).2) := by
  constructor
  · simp only [detailPosition]
    split_ifs <;>
      exact ⟨by linarith, by linarith, by linarith, by linarith⟩
  · constructor
    · simp only [computeMorePosition]
      apply jsRound_ge
      push_cast
      split_ifs <;> linarith
    · simp only [computeMorePosition]
      apply jsRound_ge
      push_cast
      split_ifs <;> linarith

/-- Witness for C2 at fitting concrete sizes. -/
theorem c2_witness :
    (16 ≤ (detailPosition ⟨40, 40, 60, 60, 20, 20⟩ 100 100 1000 800).1 ∧
      (detailPosition ⟨40, 40, 60, 60, 20, 20⟩ 100 100 1000 800).1 + 100 ≤ 1000 - 16 ∧
      16 ≤ (detailPosition ⟨40, 40, 60, 60, 20, 20⟩ 100 100 1000 800).2 ∧
      (detailPosition ⟨40, 40, 60, 60, 20, 20⟩ 100 100 1000 800).2 + 100 ≤ 800 - 16) ∧
    (16 ≤ (computeMorePosition ⟨40, 40, 60, 60, 20, 20⟩ 100 100 1000 800).1 ∧
      16 ≤ (computeMorePosition ⟨40, 40, 60, 60, 20, 20⟩ 100 100 1000 800).2) :=
  c2_contained_when_fits ⟨40, 40, 60, 60, 20, 20⟩ 100 100 1000 800
    (by norm_num) (by norm_num) (by norm_num) (by norm_num)

/-- C3: evaluation of the month-view budget machinery at the failing
trace.  After mounting at container height 664 (captured row count 6,
budget 100), navigating to a 5-row month (`handleDatesSet` stores row
count 5) and resizing again at height 664, the written budget is still
100 — computed from the stale captured row count 6 — although the
claim's formula with the active month's row count 5 gives 120; and the
month-view inline chip budget is the constant 2, not derived from the
clamped height. -/
theorem c3_stale_row_count_eval :
    (runMetrics [.mount 664, .datesSet 0 3024000000, .resize 664]).currentRowCount = 5 ∧
    (runMetrics [.mount 664, .datesSet 0 3024000000, .resize 664]).cssVar = some 100 ∧
    dayFrameMinHeight 664 5 = 120 ∧
    dayMaxEventsSetting "dayGridMonth" = some 2 := by
  have hr : rowsFromRange 0 3024000000 = 5 := by
    simp only [rowsFromRange]
    rw [jsRound_eq ((((3024000000 : ℤ) : ℚ) - ((0 : ℤ) : ℚ)) / 86400000) 35 (by norm_num)
      (by norm_num)]
    rw [show max (1 : ℤ) 35 = 35 from by decide]
    rw [jsRound_eq (((35 : ℤ) : ℚ) / 7) 5 (by norm_num) (by norm_num)]
    decide
  have h6 : dayFrameMinHeight 664 6 = 100 := by
    simp only [dayFrameMinHeight, effRowCount, clampHeight]
    rw [show ((664 : ℚ) - 64) / ((if (6 : ℤ) = 0 then 6 else 6 : ℤ) : ℚ) = 100 from by
      norm_num]
    rw [show max (48 : ℚ) (min 100 120) = 100 from by
      rw [min_eq_left (by norm_num), max_eq_right (by norm_num)]]
    exact jsRound_eq _ _ (by norm_num) (by norm_num)
  have h5 : dayFrameMinHeight 664 5 = 120 := by
    simp only [dayFrameMinHeight, effRowCount, clampHeight]
    rw [show ((664 : ℚ) - 64) / ((if (5 : ℤ) = 0 then 6 else 5 : ℤ) : ℚ) = 120 from by
      norm_num]
    rw [show max (48 : ℚ) (min 120 120) = 120 from by
      rw [min_eq_left (by norm_num), max_eq_right (by norm_num)]]
    exact jsRound_eq _ _ (by norm_num) (by norm_num)
  refine ⟨?_, ?_, h5, by decide⟩
  · simp only [runMetrics, List.foldl, stepMetrics, initMetrics]
    exact hr
  · simp only [runMetrics, List.foldl, stepMetrics, initMetrics]
    rw [h6]

/-- C4: evaluation of the holiday rendering pipeline at the failing
input.  The 2025-01-01 holiday starts at the absolute instant
`2025-01-01T00:00:00+08:00`; a viewer at UTC+08:00 sees its all-day span
on the 2025-01-01 cell, a viewer at UTC-08:00 on the 2024-12-31 cell —
one civil day earlier — because the instant is converted to the
browser-local date instead of being closed in the event's declared
zone. -/
theorem c4_holiday_shifts_across_zones :
    renderedCellDay (createHolidayStartEpoch 2025 1 1) (8 * 3600) = daysFromCivil 2025 1 1 ∧
    renderedCellDay (createHolidayStartEpoch 2025 1 1) (-(8 * 3600)) =
      daysFromCivil 2024 12 31 ∧
    daysFromCivil 2024 12 31 + 1 = daysFromCivil 2025 1 1 := by decide

/-- C1 (amended): the conversion `useMemo` is total (it never throws) and
excludes nothing: every event of every selected user's batch — whether or
not its date strings parse — yields exactly one output event carrying the
id `email-sourceId`, with an unparseable end date giving `isPast = false`
(`NaN < now` is `false`); in particular valid sibling events are always
preserved. -/
theorem c1_no_event_excluded (pd : String → Option Int) (now : Int)
    (cal : List (String × List CalendarEvent)) (users : List UserInfo)
    (sel : List String) (ov : String → Option String) (hols : List CalendarEvent)
    (sh : Bool) (onc : List CalendarEvent) (so : Bool) (selId : Option String)
    (email : String) (evs : List CalendarEvent) (e : CalendarEvent)
    (hmem : (email, evs) ∈ cal) (hsel : sel.contains email = true) (he : e ∈ evs) :
    ∃ out ∈ eventsMemo pd now cal users sel ov hols sh onc so selId,
      out.id = personalEventId email e.id ∧ out.isPast = isPastOf pd now e := by
  refine ⟨convertPersonalEvent pd now selId email
    (jsOrString ((users.find? (fun u => u.email = email)).map (·.displayName))
      (emailLocalPart email))
    (jsOrString (userColorMap users ov email) "#3174ad") e, ?_, rfl, rfl⟩
  simp only [eventsMemo]
  refine List.mem_append.mpr (Or.inl (List.mem_append.mpr (Or.inl ?_)))
  refine List.mem_flatten.mpr ⟨_, List.mem_map_of_mem _ (List.mem_filter.mpr ⟨hmem, hsel⟩), ?_⟩
  exact List.mem_map_of_mem _ he

/-- Witness for C1: a batch holding one event with unparseable dates
still yields that event in the output. -/
theorem c1_witness :
    ∃ out ∈ eventsMemo (fun _ => none) 0 [("a@b", [badEvent])] [aliceUser] ["a@b"]
        (fun _ => none) [] false [] false none,
      out.id = personalEventId "a@b" badEvent.id ∧
      out.isPast = isPastOf (fun _ => none) 0 badEvent :=
  c1_no_event_excluded (fun _ => none) 0 [("a@b", [badEvent])] [aliceUser] ["a@b"]
    (fun _ => none) [] false [] false none "a@b" [badEvent] badEvent
    (by decide) (by decide) (by decide)

/-- Counterexample to C1 as stated: a batch whose single event has
unparseable start and end dates is not excluded by the conversion — the
output contains exactly that event (with `isPast = false`), where the
claim requires an empty output. -/
theorem c1_counterexample :
    ((eventsMemo (fun _ => none) 0 [("a@b", [badEvent])] [aliceUser] ["a@b"]
      (fun _ => none) [] false [] false none).map (·.id)) = ["a@b-e1"] ∧
    isPastOf (fun _ => none) 0 badEvent = false := by decide
